import Mathlib

/-!
Verification development for the parallel tile-based Bayer demosaic engine
(`src/demosaic.rs`) and the auto-exposure estimator (`src/raw.rs`).

Modelling conventions:
* machine integers (`u16`, `u32`, `usize`) are modelled as `Nat`; Rust's
  `saturating_sub` on unsigned integers is exactly truncated `Nat`
  subtraction, and unsigned `/` is `Nat` division;
* `f32` arithmetic is modelled exactly over `ℚ` (over `ℝ` for the logarithm
  in the auto-exposure estimator); Rust's saturating `as u8` cast of a float
  is `byteOfRat` below; the cast of NaN yields 0 in Rust, which agrees with
  the Lean convention `0 / 0 = 0` at the single place a NaN can arise in the
  blend (the division when the accumulated weight and incoming weight are
  both zero);
* imperative buffers (`Vec<u16>`, `Vec<u8>`, `Vec<f32>`) are `List Nat` /
  `List ℚ`, with `List.set` for writes and `List.getD _ 0` for reads.
-/

/-- Bayer pattern types (`enum BayerPattern` in `demosaic.rs`). -/
inductive BayerPattern
  | RGGB
  | GRBG
  | GBRG
  | BGGR
deriving DecidableEq, Repr

/-- Color at position (x, y): 0 = Red, 1 = Green, 2 = Blue
(`BayerPattern::color_at`).  The source computes `x & 1` / `y & 1`, i.e. the
parities `x % 2` / `y % 2`, and looks the pair up in a fixed table per
pattern.  The final wildcard row models the source's `unreachable!()` arms
(the scrutinees are always 0 or 1). -/
def BayerPattern.color_at (p : BayerPattern) (x y : Nat) : Nat :=
  let x_odd := x % 2
  let y_odd := y % 2
  match p with
  | .RGGB =>
    match x_odd, y_odd with
    | 0, 0 => 0
    | 1, 0 => 1
    | 0, 1 => 1
    | 1, 1 => 2
    | _, _ => 0
  | .GRBG =>
    match x_odd, y_odd with
    | 0, 0 => 1
    | 1, 0 => 0
    | 0, 1 => 2
    | 1, 1 => 1
    | _, _ => 0
  | .GBRG =>
    match x_odd, y_odd with
    | 0, 0 => 1
    | 1, 0 => 2
    | 0, 1 => 0
    | 1, 1 => 1
    | _, _ => 0
  | .BGGR =>
    match x_odd, y_odd with
    | 0, 0 => 2
    | 1, 0 => 1
    | 0, 1 => 1
    | 1, 1 => 0
    | _, _ => 0

/-- Detect pattern from a LibRaw `cdesc` string (`BayerPattern::from_cdesc`).
The source receives `&[i8; 5]`, reinterprets the first four entries as `u8`
(two's complement, modelled as `Int.emod _ 256`) and compares the 4-byte
array with the ASCII strings RGGB = [82,71,71,66], GRBG = [71,82,66,71],
GBRG = [71,66,82,71], BGGR = [66,71,71,82], defaulting to RGGB. -/
def BayerPattern.from_cdesc (cdesc : Fin 5 → Int) : BayerPattern :=
  let pattern : Int × Int × Int × Int :=
    (cdesc 0 % 256, cdesc 1 % 256, cdesc 2 % 256, cdesc 3 % 256)
  if pattern = (82, 71, 71, 66) then .RGGB
  else if pattern = (71, 82, 66, 71) then .GRBG
  else if pattern = (71, 66, 82, 71) then .GBRG
  else if pattern = (66, 71, 71, 82) then .BGGR
  else .RGGB

/-- Demosaic algorithm selection (`enum DemosaicAlgorithm`). -/
inductive DemosaicAlgorithm
  | Bilinear
  | VNG
  | AHD
deriving DecidableEq, Repr

/-- Tile for parallel processing (`struct Tile`). -/
structure Tile where
  data : List Nat
  x : Nat
  y : Nat
  width : Nat
  height : Nat
  overlap : Nat
deriving DecidableEq, Repr

/-- Demosaiced tile result (`struct DemosaicedTile`). -/
structure DemosaicedTile where
  rgb : List Nat
  x : Nat
  y : Nat
  width : Nat
  height : Nat
  overlap : Nat
deriving DecidableEq, Repr

/-- Parallel demosaic processor configuration (`struct ParallelDemosaic`). -/
structure ParallelDemosaic where
  tile_size : Nat
  overlap : Nat
  algorithm : DemosaicAlgorithm
deriving DecidableEq, Repr

/-- Rust's saturating `f32 → u8` cast (`as u8`): truncate toward zero and
clamp into `[0, 255]`; NaN casts to 0.  For the nonnegative rationals
produced by this code, truncation is `Int.floor`, and the single division
that would be NaN in `f32` (zero over zero) is `0` in `ℚ`, matching the 0
byte Rust stores for it. -/
def byteOfRat (q : ℚ) : Nat := min 255 (Int.toNat ⌊q⌋)

/-- Per-pixel body of `ParallelDemosaic::demosaic_bilinear` for an interior
pixel `(x, y)` of a tile whose top-left corner sits at absolute position
`(gx - x, gy - y)`: produces the `(r, g, b)` value triple (before scaling to
8 bits).  `sample i` is `bayer[i].saturating_sub(black_level)`; the index
arithmetic `idx ± 1`, `idx ± width`, `idx ± width ± 1` is the source's. -/
def pixelRGB (bayer : List Nat) (width : Nat) (gx gy x y : Nat)
    (pattern : BayerPattern) (black_level : Nat) : Nat × Nat × Nat :=
  let sample := fun (i : Nat) => bayer.getD i 0 - black_level
  let idx := y * width + x
  let pixel := sample idx
  match pattern.color_at gx gy with
  | 0 =>
      let g := (sample (idx - 1) + sample (idx + 1) +
                sample (idx - width) + sample (idx + width)) / 4
      let b := (sample (idx - width - 1) + sample (idx - width + 1) +
                sample (idx + width - 1) + sample (idx + width + 1)) / 4
      (pixel, g, b)
  | 1 =>
      let on_red_row :=
        pattern.color_at (gx - 1) gy == 0 || pattern.color_at (gx + 1) gy == 0
      if on_red_row then
        let r := (sample (idx - 1) + sample (idx + 1)) / 2
        let b := (sample (idx - width) + sample (idx + width)) / 2
        (r, pixel, b)
      else
        let b := (sample (idx - 1) + sample (idx + 1)) / 2
        let r := (sample (idx - width) + sample (idx + width)) / 2
        (r, pixel, b)
  | 2 =>
      let g := (sample (idx - 1) + sample (idx + 1) +
                sample (idx - width) + sample (idx + width)) / 4
      let r := (sample (idx - width - 1) + sample (idx - width + 1) +
                sample (idx + width - 1) + sample (idx + width + 1)) / 4
      (r, g, pixel)
  | _ => (0, 0, 0)

/-- Channel selector for an `(r, g, b)` triple: channel 0 is red, 1 green,
2 blue (the order in which `demosaic_bilinear` writes the three bytes of a
pixel). -/
def rgbChannel (c : Nat) (t : Nat × Nat × Nat) : Nat :=
  match c with
  | 0 => t.1
  | 1 => t.2.1
  | _ => t.2.2

/-- Bilinear demosaic of one tile (`ParallelDemosaic::demosaic_bilinear`).
The source allocates `vec![0u8; width * height * 3]` and overwrites the
three bytes of every interior pixel (`y` in `1..height-1`, `x` in
`1..width-1`, saturating subtraction); this is rendered positionally: entry
`k` of the result is the scaled channel `k % 3` of pixel `k / 3` when that
pixel is interior, and the initial 0 otherwise.  `scale` is
`255.0 / (white_level.saturating_sub(black_level)) as f32` (in `ℚ`; the
degenerate `white_level ≤ black_level` case gives `255 / 0 = 0` here where
`f32` gives +∞ — no claim below depends on the scale's value). -/
def demosaic_bilinear (bayer : List Nat) (width height offset_x offset_y : Nat)
    (pattern : BayerPattern) (black_level white_level : Nat) : List Nat :=
  let scale : ℚ := 255 / ((white_level - black_level : Nat) : ℚ)
  (List.range (width * height * 3)).map fun k =>
    let pix := k / 3
    let x := pix % width
    let y := pix / width
    if 1 ≤ y ∧ y < height - 1 ∧ 1 ≤ x ∧ x < width - 1 then
      let rgb3 := pixelRGB bayer width (offset_x + x) (offset_y + y) x y pattern black_level
      let v : Nat := rgbChannel (k % 3) rgb3
      byteOfRat (min 255 ((v : ℚ) * scale))
    else 0

/-- Extract a tile from the Bayer array (`ParallelDemosaic::extract_tile`).
Bounds use saturating subtraction and `min` exactly as the source; each row
is copied when `src_offset + tile_width <= bayer_data.len()` and otherwise
left as the zeros of the `vec![0u16; ...]` allocation. -/
def ParallelDemosaic.extract_tile (self : ParallelDemosaic) (bayer_data : List Nat)
    (full_width full_height tile_x tile_y : Nat) : Tile :=
  let start_x := tile_x * self.tile_size - self.overlap
  let start_y := tile_y * self.tile_size - self.overlap
  let end_x := min ((tile_x + 1) * self.tile_size + self.overlap) full_width
  let end_y := min ((tile_y + 1) * self.tile_size + self.overlap) full_height
  let tile_width := end_x - start_x
  let tile_height := end_y - start_y
  let data :=
    ((List.range tile_height).map fun yy =>
      let src_offset := (start_y + yy) * full_width + start_x
      if src_offset + tile_width ≤ bayer_data.length then
        (bayer_data.drop src_offset).take tile_width
      else
        List.replicate tile_width 0).flatten
  { data := data, x := start_x, y := start_y,
    width := tile_width, height := tile_height, overlap := self.overlap }

/-- Demosaic a single tile (`ParallelDemosaic::demosaic_tile`): all three
algorithm arms of the source call `demosaic_bilinear` (VNG and AHD fall back
to bilinear). -/
def ParallelDemosaic.demosaic_tile (self : ParallelDemosaic) (tile : Tile)
    (pattern : BayerPattern) (black_level white_level : Nat) : DemosaicedTile :=
  let rgb :=
    match self.algorithm with
    | .Bilinear =>
        demosaic_bilinear tile.data tile.width tile.height tile.x tile.y
          pattern black_level white_level
    | .VNG =>
        demosaic_bilinear tile.data tile.width tile.height tile.x tile.y
          pattern black_level white_level
    | .AHD =>
        demosaic_bilinear tile.data tile.width tile.height tile.x tile.y
          pattern black_level white_level
  { rgb := rgb, x := tile.x, y := tile.y,
    width := tile.width, height := tile.height, overlap := tile.overlap }

/-- Per-axis blend factor of `ParallelDemosaic::combine_tiles` (the `dx` and
`dy` expressions): `d` is the tile-local coordinate, `size` the tile extent
on that axis, `overlap` the blend band width.  Subtractions are on `usize`;
they are only reached when they cannot underflow, so truncated `Nat`
subtraction is faithful. -/
def rampCode (d size overlap : Nat) : ℚ :=
  if d < overlap then (d : ℚ) / (overlap : ℚ)
  else if size - overlap ≤ d then ((size - d : Nat) : ℚ) / (overlap : ℚ)
  else 1

/-- Ramp described by the specification sentence for the blend weight
(claim C1): distance from the nearer tile edge divided by `overlap`, clamped
to `[0, 1]`, with interior distance at least `overlap` giving `1` (and the
whole tile interior when `overlap = 0`). -/
def rampClaim (d size overlap : Nat) : ℚ :=
  if overlap = 0 then 1
  else min 1 (((min d (size - d) : Nat) : ℚ) / (overlap : ℚ))

/-- Blend weight `weight = dx * dy` used by `combine_tiles` for tile-local
pixel `(tx, ty)` of a demosaiced tile. -/
def blendWeight (tile : DemosaicedTile) (tx ty : Nat) : ℚ :=
  rampCode tx tile.width tile.overlap * rampCode ty tile.height tile.overlap

/-- Mutable state of `combine_tiles`: the `output` RGB byte buffer and the
`weight_map` of accumulated per-pixel weights. -/
structure BlendState where
  output : List Nat
  weight_map : List ℚ
deriving Repr

/-- One channel update of the weighted accumulation in `combine_tiles`:
`output[dst_idx + off] = ((output[dst_idx + off] * weight_map[weight_idx] +
tile.rgb[src_idx + off] * weight) / (weight_map[weight_idx] + weight)) as u8`. -/
def accumChannel (out : List Nat) (rgbt : List Nat) (wm weight : ℚ)
    (dst_idx src_idx off : Nat) : List Nat :=
  out.set (dst_idx + off)
    (byteOfRat (((out.getD (dst_idx + off) 0 : Nat) * wm +
                 (rgbt.getD (src_idx + off) 0 : Nat) * weight) / (wm + weight)))

/-- Body of the per-pixel loop of `ParallelDemosaic::combine_tiles` for the
tile-local pixel `(tx, ty)` of `tile`: skip out-of-bounds pixels, compute
the blend weight, and if the source and destination index checks pass,
update the three output bytes and add the weight into the weight map. -/
def accumPixel (width height : Nat) (tile : DemosaicedTile) (st : BlendState)
    (ty tx : Nat) : BlendState :=
  let global_x := tile.x + tx
  let global_y := tile.y + ty
  if width ≤ global_x ∨ height ≤ global_y then st
  else
    let weight := blendWeight tile tx ty
    let src_idx := (ty * tile.width + tx) * 3
    let dst_idx := (global_y * width + global_x) * 3
    let weight_idx := global_y * width + global_x
    if src_idx + 2 < tile.rgb.length ∧ dst_idx + 2 < st.output.length then
      let wm := st.weight_map.getD weight_idx 0
      let out0 := accumChannel st.output tile.rgb wm weight dst_idx src_idx 0
      let out1 := accumChannel out0 tile.rgb wm weight dst_idx src_idx 1
      let out2 := accumChannel out1 tile.rgb wm weight dst_idx src_idx 2
      { output := out2, weight_map := st.weight_map.set weight_idx (wm + weight) }
    else st

/-- Full state of `ParallelDemosaic::combine_tiles` after folding every tile
of the collection (in order) over all its pixels in row-major order,
starting from the all-zero output and weight buffers. -/
def combineState (tiles : List DemosaicedTile) (width height : Nat) : BlendState :=
  tiles.foldl
    (fun st tile =>
      (List.range tile.height).foldl
        (fun st1 ty =>
          (List.range tile.width).foldl
            (fun st2 tx => accumPixel width height tile st2 ty tx) st1)
        st)
    { output := List.replicate (width * height * 3) 0,
      weight_map := List.replicate (width * height) 0 }

/-- Combine demosaiced tiles into the final image with blending
(`ParallelDemosaic::combine_tiles`): the function unconditionally returns
the output buffer of the accumulation state (its `Vec<u8>` return type has
no error channel).  The `inner_x/inner_y/inner_w/inner_h` locals of the
source are dead code (never read) and are omitted. -/
def combine_tiles (tiles : List DemosaicedTile) (width height : Nat) : List Nat :=
  (combineState tiles width height).output

/-- Tile extraction stage of `ParallelDemosaic::demosaic`: for each grid row
`ty` in `0..tiles_y` and column `tx` in `0..tiles_x` (row-major,
`flat_map` over `map`), extract the tile at `(tx, ty)`. -/
def ParallelDemosaic.tilesList (self : ParallelDemosaic) (bayer_data : List Nat)
    (width height : Nat) : List Tile :=
  let tiles_x := (width + self.tile_size - 1) / self.tile_size
  let tiles_y := (height + self.tile_size - 1) / self.tile_size
  ((List.range tiles_y).map fun ty =>
    (List.range tiles_x).map fun tx =>
      self.extract_tile bayer_data width height tx ty).flatten

/-- Demosaic raw Bayer data to RGB (`ParallelDemosaic::demosaic`): extract
the tiles, demosaic each (the source dispatches this map over a parallel
iterator that collects results back in order), and combine. -/
def ParallelDemosaic.demosaic (self : ParallelDemosaic) (bayer_data : List Nat)
    (width height : Nat) (pattern : BayerPattern)
    (black_level white_level : Nat) : List Nat :=
  let tiles := self.tilesList bayer_data width height
  let demosaiced_tiles :=
    tiles.map fun tile => self.demosaic_tile tile pattern black_level white_level
  combine_tiles demosaiced_tiles width height

/-- Core (non-overlap) region of grid tile `(tx, ty)` as described for the
tiling-coverage property: pixel `(px, py)` lies in
`[tx*tile_size, min((tx+1)*tile_size, width)) ×
 [ty*tile_size, min((ty+1)*tile_size, height))`. -/
def inCoreRegion (tile_size width height tx ty px py : Nat) : Prop :=
  tx * tile_size ≤ px ∧ px < min ((tx + 1) * tile_size) width ∧
  ty * tile_size ≤ py ∧ py < min ((ty + 1) * tile_size) height

/-- Exact (unquantized) contribution of one tile to output pixel
`(px, py)`, channel `off`, in `combine_tiles`: the pair
`(weight * value, weight)` the tile's pixel loop adds at that output
position, or `(0, 0)` when the loop's guards skip it.  `outLen` stands for
`output.len()`, which `combine_tiles` keeps constant at
`width * height * 3`. -/
def exactContribution (width height outLen : Nat) (tile : DemosaicedTile)
    (px py off : Nat) : ℚ × ℚ :=
  if tile.x ≤ px ∧ px - tile.x < tile.width ∧ tile.y ≤ py ∧ py - tile.y < tile.height ∧
     px < width ∧ py < height ∧
     ((py - tile.y) * tile.width + (px - tile.x)) * 3 + 2 < tile.rgb.length ∧
     (py * width + px) * 3 + 2 < outLen then
    let tx := px - tile.x
    let ty := py - tile.y
    let w := blendWeight tile tx ty
    (w * (tile.rgb.getD ((ty * tile.width + tx) * 3 + off) 0 : Nat), w)
  else (0, 0)

/-- Exact weighted accumulation over a tile collection at one output pixel
and channel: the total `Σ weight·value` and `Σ weight` that
`combine_tiles`' accumulation gathers there, free of the intermediate 8-bit
quantization of the stored running average. -/
def exactBlendSums (tiles : List DemosaicedTile) (width height px py off : Nat) : ℚ × ℚ :=
  ((tiles.map fun t =>
      (exactContribution width height (width * height * 3) t px py off).1).sum,
   (tiles.map fun t =>
      (exactContribution width height (width * height * 3) t px py off).2).sum)

open Classical in
/-- EV computation of `MediaProcessor::calculate_auto_exposure`
(`raw.rs`), from the sampled histogram's median bin onward: target median
118, `ev = log2(target / current_median)`, clamp to `[-2, 3]`, and zero out
adjustments whose magnitude is not above `0.3`.  `f32` is modelled as `ℝ`
(`0.3` denotes `3/10`). -/
noncomputable def calculate_auto_exposure_ev (current_median : ℝ) : ℝ :=
  let target_median : ℝ := 118
  let ev_adjustment : ℝ := Real.logb 2 (target_median / current_median)
  let clamped_ev : ℝ := max (-2) (min 3 ev_adjustment)
  if 0.3 < |clamped_ev| then clamped_ev else 0

/-- Concrete demosaiced tile exhibiting a coverage gap when blended alone
into a 1×1 output: the default overlap 16 exceeds the tile extent, so its
single pixel gets blend weight 0.  This is the demosaiced tile the pipeline
produces for a 1×1 image (after `demosaic_bilinear` zeroes everything), with
nonzero bytes substituted to show they are discarded. -/
def gapTile : DemosaicedTile :=
  { rgb := [7, 7, 7], x := 0, y := 0, width := 1, height := 1, overlap := 16 }

/-- First tile of the blend-order counterexample: a 1×1 overlap-0 tile at
the origin with all channels 0. -/
def permTileA : DemosaicedTile :=
  { rgb := [0, 0, 0], x := 0, y := 0, width := 1, height := 1, overlap := 0 }

/-- Second tile of the blend-order counterexample: same placement, all
channels 3. -/
def permTileB : DemosaicedTile :=
  { rgb := [3, 3, 3], x := 0, y := 0, width := 1, height := 1, overlap := 0 }

/-- Third tile of the blend-order counterexample: same placement, all
channels 0. -/
def permTileC : DemosaicedTile :=
  { rgb := [0, 0, 0], x := 0, y := 0, width := 1, height := 1, overlap := 0 }

/-! ### Theorems -/

/-- C10: selecting `DemosaicAlgorithm::VNG` or `DemosaicAlgorithm::AHD`
produces output byte-identical to `DemosaicAlgorithm::Bilinear`: for every
tile, pattern, black level and white level, `demosaic_tile` computes the
same bilinear reconstruction under all three algorithm choices, and the
full `demosaic` pipeline output is identical as well. -/
theorem demosaic_tile_algorithm_irrelevant (ts ov : Nat) (tile : Tile)
    (pattern : BayerPattern) (black_level white_level : Nat)
    (bayer : List Nat) (width height : Nat) :
    (ParallelDemosaic.demosaic_tile ⟨ts, ov, .VNG⟩ tile pattern black_level white_level =
       ParallelDemosaic.demosaic_tile ⟨ts, ov, .Bilinear⟩ tile pattern black_level white_level) ∧
    (ParallelDemosaic.demosaic_tile ⟨ts, ov, .AHD⟩ tile pattern black_level white_level =
       ParallelDemosaic.demosaic_tile ⟨ts, ov, .Bilinear⟩ tile pattern black_level white_level) ∧
    (ParallelDemosaic.demosaic ⟨ts, ov, .VNG⟩ bayer width height pattern black_level white_level =
       ParallelDemosaic.demosaic ⟨ts, ov, .Bilinear⟩ bayer width height pattern black_level white_level) ∧
    (ParallelDemosaic.demosaic ⟨ts, ov, .AHD⟩ bayer width height pattern black_level white_level =
       ParallelDemosaic.demosaic ⟨ts, ov, .Bilinear⟩ bayer width height pattern black_level white_level) :=
  ⟨rfl, rfl, rfl, rfl⟩

/-- C9: `BayerPattern::from_cdesc` is total over all 5-byte `cdesc` inputs
and always returns one of the four patterns; whenever the first four bytes
are not exactly RGGB, GRBG, GBRG or BGGR, it returns RGGB. -/
theorem from_cdesc_total_fallback (cdesc : Fin 5 → Int) :
    (BayerPattern.from_cdesc cdesc = .RGGB ∨ BayerPattern.from_cdesc cdesc = .GRBG ∨
     BayerPattern.from_cdesc cdesc = .GBRG ∨ BayerPattern.from_cdesc cdesc = .BGGR) ∧
    ((cdesc 0 % 256, cdesc 1 % 256, cdesc 2 % 256, cdesc 3 % 256) ≠ ((82 : Int), 71, 71, 66) →
     (cdesc 0 % 256, cdesc 1 % 256, cdesc 2 % 256, cdesc 3 % 256) ≠ ((71 : Int), 82, 66, 71) →
     (cdesc 0 % 256, cdesc 1 % 256, cdesc 2 % 256, cdesc 3 % 256) ≠ ((71 : Int), 66, 82, 71) →
     (cdesc 0 % 256, cdesc 1 % 256, cdesc 2 % 256, cdesc 3 % 256) ≠ ((66 : Int), 71, 71, 82) →
     BayerPattern.from_cdesc cdesc = .RGGB) := by
  constructor
  · simp only [BayerPattern.from_cdesc]
    split
    · exact Or.inl rfl
    split
    · exact Or.inr (Or.inl rfl)
    split
    · exact Or.inr (Or.inr (Or.inl rfl))
    split
    · exact Or.inr (Or.inr (Or.inr rfl))
    · exact Or.inl rfl
  · intro h1 h2 h3 h4
    simp only [BayerPattern.from_cdesc]
    rw [if_neg h1, if_neg h2, if_neg h3, if_neg h4]

/-- Witness for C9: an input spelling XXXX (byte 88 everywhere) matches no
pattern string and falls back to RGGB. -/
theorem from_cdesc_total_fallback_witness :
    BayerPattern.from_cdesc (fun _ => 88) = .RGGB :=
  (from_cdesc_total_fallback (fun _ => 88)).2 (by decide) (by decide) (by decide) (by decide)

/-- Helper for C1: on tiles that are at least twice as wide as the overlap
band, the per-axis blend factor of `combine_tiles` agrees with the
spec-described ramp. -/
theorem rampCode_eq_rampClaim (d size overlap : Nat) (hd : d < size)
    (hs : 2 * overlap ≤ size) : rampCode d size overlap = rampClaim d size overlap := by
  unfold rampCode rampClaim
  rcases Nat.eq_zero_or_pos overlap with ho | ho
  · subst ho
    rw [if_neg (Nat.not_lt_zero d), if_neg (by omega : ¬size - 0 ≤ d), if_pos rfl]
  have hoQ : (0 : ℚ) < (overlap : ℚ) := by exact_mod_cast ho
  rw [if_neg (by omega : ¬overlap = 0)]
  by_cases h1 : d < overlap
  · rw [if_pos h1]
    have hmin : min d (size - d) = d := Nat.min_eq_left (by omega)
    rw [hmin]
    rw [min_eq_right]
    rw [div_le_one hoQ]
    exact_mod_cast Nat.le_of_lt h1
  · rw [if_neg h1]
    by_cases h2 : size - overlap ≤ d
    · rw [if_pos h2]
      have hmin : min d (size - d) = size - d := Nat.min_eq_right (by omega)
      rw [hmin]
      rw [min_eq_right]
      rw [div_le_one hoQ]
      exact_mod_cast (by omega : size - d ≤ overlap)
    · rw [if_neg h2]
      have hmin : overlap ≤ min d (size - d) := by omega
      rw [eq_comm, min_eq_left]
      rw [le_div_iff₀ hoQ, one_mul]
      exact_mod_cast hmin

/-- C1 (amended): for every demosaiced tile whose width and height are both
at least twice the overlap, the blend weight used by `combine_tiles` at
tile-local pixel `(tx, ty)` equals `ramp(tx) * ramp(ty)` with the ramp the
spec describes (distance from the nearer edge over `overlap`, clamped to
`[0, 1]`, `1` in the interior).  Without that restriction the claim fails:
see the counterexample below, where the leading-edge branch takes
precedence. -/
theorem blendWeight_eq_claim (tile : DemosaicedTile) (tx ty : Nat)
    (htx : tx < tile.width) (hty : ty < tile.height)
    (hw : 2 * tile.overlap ≤ tile.width) (hh : 2 * tile.overlap ≤ tile.height) :
    blendWeight tile tx ty =
      rampClaim tx tile.width tile.overlap * rampClaim ty tile.height tile.overlap := by
  unfold blendWeight
  rw [rampCode_eq_rampClaim _ _ _ htx hw, rampCode_eq_rampClaim _ _ _ hty hh]

/-- Witness for C1 (amended): a 40×40 tile with overlap 16 at pixel
(5, 20). -/
theorem blendWeight_eq_claim_witness :
    blendWeight { rgb := [], x := 0, y := 0, width := 40, height := 40, overlap := 16 } 5 20 =
      rampClaim 5 40 16 * rampClaim 20 40 16 :=
  blendWeight_eq_claim _ 5 20 (by decide) (by decide) (by decide) (by decide)

/-- Counterexample for C1 as stated: for the 3×3 tile with overlap 3 (as
extracted from a 3-pixel-wide image with tile_size 1 and overlap 3), at
tile-local pixel (2, 2) the code's blend weight is (2/3)·(2/3) while the
claimed ramp product is (1/3)·(1/3): the claim's ramp, based on the distance
from the nearer edge, does not describe the code when the tile extent is
smaller than twice the overlap. -/
theorem blendWeight_ne_claim :
    blendWeight { rgb := [], x := 0, y := 0, width := 3, height := 3, overlap := 3 } 2 2 ≠
      rampClaim 2 3 3 * rampClaim 2 3 3 := by
  unfold blendWeight rampCode rampClaim
  norm_num

/-- Helper: `getD` after `set`, as an explicit conditional. -/
theorem getD_set_eq_ite {α : Type} (d : α) :
    ∀ (l : List α) (i : Nat) (v : α) (j : Nat),
      (l.set i v).getD j d = if i = j ∧ j < l.length then v else l.getD j d := by
  intro l
  induction l with
  | nil => intro i v j; simp
  | cons a t ih =>
    intro i v j
    cases i with
    | zero =>
      cases j with
      | zero => simp
      | succ j => simp
    | succ i =>
      cases j with
      | zero => simp
      | succ j =>
        simp only [List.set_cons_succ, List.getD_cons_succ, List.length_cons, ih]
        by_cases h : i = j ∧ j < t.length
        · rw [if_pos h, if_pos (by omega)]
        · rw [if_neg h, if_neg (by omega)]

/-- Helper: `getD` of a constant list is that constant. -/
theorem getD_replicate_self {α : Type} [Inhabited α] (a : α) (n j : Nat) :
    (List.replicate n a).getD j a = a := by
  rcases Nat.lt_or_ge j n with h | h
  · rw [List.getD_eq_getElem _ _ (by simpa using h)]
    simp
  · exact List.getD_eq_default _ _ (by simpa using h)

/-- Helper: a left fold preserves any invariant its step preserves. -/
theorem foldl_preserves {α β : Type} (P : α → Prop) (f : α → β → α)
    (hf : ∀ s b, P s → P (f s b)) : ∀ (l : List β) (s : α), P s → P (l.foldl f s) := by
  intro l
  induction l with
  | nil => exact fun s hs => hs
  | cons b t ih => exact fun s hs => ih _ (hf _ _ hs)

/-- Helper: the saturating byte cast never exceeds 255. -/
theorem byteOfRat_le (q : ℚ) : byteOfRat q ≤ 255 := Nat.min_le_left _ _

/-- Helper: the saturating byte cast of 0 is 0. -/
theorem byteOfRat_zero : byteOfRat 0 = 0 := by norm_num [byteOfRat]

/-- Helper: one accumulation write keeps every output byte at most 255. -/
theorem accumChannel_bound (out rgbt : List Nat) (wm weight : ℚ) (d s off : Nat)
    (h : ∀ j, out.getD j 0 ≤ 255) :
    ∀ j, (accumChannel out rgbt wm weight d s off).getD j 0 ≤ 255 := by
  intro j
  unfold accumChannel
  rw [getD_set_eq_ite]
  split
  · exact byteOfRat_le _
  · exact h j

/-- Helper: the per-pixel blend step keeps every output byte at most 255. -/
theorem accumPixel_bound (width height : Nat) (tile : DemosaicedTile) (st : BlendState)
    (ty tx : Nat) (h : ∀ j, st.output.getD j 0 ≤ 255) :
    ∀ j, (accumPixel width height tile st ty tx).output.getD j 0 ≤ 255 := by
  simp only [accumPixel]
  split
  · exact h
  split
  · exact accumChannel_bound _ _ _ _ _ _ _
      (accumChannel_bound _ _ _ _ _ _ _ (accumChannel_bound _ _ _ _ _ _ _ h))
  · exact h

/-- Helper: every byte of the blended output is in `[0, 255]`. -/
theorem combine_tiles_bound (tiles : List DemosaicedTile) (width height : Nat) :
    ∀ j, (combine_tiles tiles width height).getD j 0 ≤ 255 := by
  unfold combine_tiles combineState
  apply foldl_preserves (fun st : BlendState => ∀ j, st.output.getD j 0 ≤ 255)
  · intro st tile hst
    apply foldl_preserves (fun st : BlendState => ∀ j, st.output.getD j 0 ≤ 255)
    · intro st1 ty h1
      apply foldl_preserves (fun st : BlendState => ∀ j, st.output.getD j 0 ≤ 255)
      · intro st2 tx h2
        exact accumPixel_bound width height tile st2 ty tx h2
      · exact h1
    · exact hst
  · intro j
    exact le_trans (le_of_eq (getD_replicate_self 0 (width * height * 3) j)) (by norm_num)

/-- Helper: each per-axis blend factor is nonnegative. -/
theorem rampCode_nonneg (d size overlap : Nat) : 0 ≤ rampCode d size overlap := by
  unfold rampCode
  split
  · positivity
  split
  · positivity
  · norm_num

/-- Helper: the blend weight is nonnegative. -/
theorem blendWeight_nonneg (tile : DemosaicedTile) (tx ty : Nat) :
    0 ≤ blendWeight tile tx ty :=
  mul_nonneg (rampCode_nonneg _ _ _) (rampCode_nonneg _ _ _)

/-- C3: for every output pixel where the accumulated weight plus the
incoming tile weight is 0, the weighted-accumulation step of
`combine_tiles` stores 0 in all three output bytes and leaves the
accumulated weight at 0 (the pixel is treated as weight 0); moreover no
out-of-range value is ever stored: every byte of any `combine_tiles` output
is at most 255.  In the source the zero-total division produces an `f32`
NaN whose saturating `as u8` cast is the stored 0 byte. -/
theorem combine_tiles_zero_weight_guard (width height : Nat) (tile : DemosaicedTile)
    (st : BlendState) (ty tx : Nat)
    (hgx : tile.x + tx < width) (hgy : tile.y + ty < height)
    (hsrc : (ty * tile.width + tx) * 3 + 2 < tile.rgb.length)
    (hdst : ((tile.y + ty) * width + (tile.x + tx)) * 3 + 2 < st.output.length)
    (hwm : 0 ≤ st.weight_map.getD ((tile.y + ty) * width + (tile.x + tx)) 0)
    (hzero : st.weight_map.getD ((tile.y + ty) * width + (tile.x + tx)) 0 +
      blendWeight tile tx ty = 0) :
    (∀ off, off < 3 →
      (accumPixel width height tile st ty tx).output.getD
        (((tile.y + ty) * width + (tile.x + tx)) * 3 + off) 0 = 0) ∧
    (accumPixel width height tile st ty tx).weight_map.getD
      ((tile.y + ty) * width + (tile.x + tx)) 0 = 0 ∧
    (∀ (tiles : List DemosaicedTile) (w h j : Nat),
      (combine_tiles tiles w h).getD j 0 ≤ 255) := by
  have hwz : blendWeight tile tx ty = 0 ∧
      st.weight_map.getD ((tile.y + ty) * width + (tile.x + tx)) 0 = 0 := by
    have := blendWeight_nonneg tile tx ty
    constructor <;> linarith
  simp only [accumPixel]
  rw [if_neg (by omega : ¬(width ≤ tile.x + tx ∨ height ≤ tile.y + ty))]
  rw [if_pos ⟨hsrc, hdst⟩]
  simp only [accumChannel, hwz.1, hwz.2]
  have hv : ∀ (a b : ℚ), byteOfRat ((a * 0 + b * 0) / (0 + 0)) = 0 := by
    intro a b
    norm_num [byteOfRat]
  refine ⟨?_, ?_, fun tiles w h j => combine_tiles_bound tiles w h j⟩
  · intro off hoff
    interval_cases off
    · rw [getD_set_eq_ite, if_neg (by omega), getD_set_eq_ite, if_neg (by omega),
        getD_set_eq_ite, if_pos ⟨rfl, by omega⟩]
      exact hv _ _
    · rw [getD_set_eq_ite, if_neg (by omega), getD_set_eq_ite,
        if_pos ⟨rfl, by simp only [List.length_set]; omega⟩]
      exact hv _ _
    · rw [getD_set_eq_ite,
        if_pos ⟨rfl, by simp only [List.length_set]; omega⟩]
      exact hv _ _
  · rw [getD_set_eq_ite]
    split
    · norm_num
    · exact hwz.2

/-- Witness for C3: a 1×1 tile with overlap 5 blended into a 1×1 output has
blend weight 0 at its only pixel; with accumulated weight 0 the step stores
0 bytes and leaves the weight at 0. -/
theorem combine_tiles_zero_weight_guard_witness :
    (∀ off, off < 3 →
      (accumPixel 1 1 { rgb := [9, 9, 9], x := 0, y := 0, width := 1, height := 1, overlap := 5 }
        { output := [1, 2, 3], weight_map := [0] } 0 0).output.getD
        (((0 + 0) * 1 + (0 + 0)) * 3 + off) 0 = 0) ∧
    (accumPixel 1 1 { rgb := [9, 9, 9], x := 0, y := 0, width := 1, height := 1, overlap := 5 }
      { output := [1, 2, 3], weight_map := [0] } 0 0).weight_map.getD
      ((0 + 0) * 1 + (0 + 0)) 0 = 0 ∧
    (∀ (tiles : List DemosaicedTile) (w h j : Nat),
      (combine_tiles tiles w h).getD j 0 ≤ 255) :=
  combine_tiles_zero_weight_guard 1 1 _ _ 0 0 (by norm_num) (by norm_num)
    (by norm_num) (by norm_num) (by norm_num)
    (by norm_num [blendWeight, rampCode])

/-- Helper: `getD` on a mapped range list, as an explicit conditional. -/
theorem getD_map_range {α : Type} (f : Nat → α) (d : α) (n k : Nat) :
    ((List.range n).map f).getD k d = if k < n then f k else d := by
  rcases Nat.lt_or_ge k n with h | h
  · rw [List.getD_eq_getElem _ _ (by simpa using h), if_pos h]
    simp
  · rw [List.getD_eq_default _ _ (by simpa using h), if_neg (by omega)]

/-- Helper: the byte `demosaic_bilinear` stores for channel `c` of pixel
`(x, y)`: the scaled `pixelRGB` value on the interior, the initial 0 on the
border. -/
theorem demosaic_bilinear_entry (bayer : List Nat)
    (width height offset_x offset_y : Nat) (pattern : BayerPattern)
    (black_level white_level : Nat) (x y c : Nat)
    (hx : x < width) (hy : y < height) (hc : c < 3) :
    (demosaic_bilinear bayer width height offset_x offset_y pattern
        black_level white_level).getD ((y * width + x) * 3 + c) 0 =
      if 1 ≤ y ∧ y < height - 1 ∧ 1 ≤ x ∧ x < width - 1 then
        byteOfRat (min 255
          ((rgbChannel c (pixelRGB bayer width (offset_x + x) (offset_y + y) x y
              pattern black_level) : ℚ) *
            (255 / ((white_level - black_level : Nat) : ℚ))))
      else 0 := by
  have hw0 : 0 < width := by omega
  have hk : (y * width + x) * 3 + c < width * height * 3 := by
    have h1 : y * width + x + 1 ≤ height * width := by
      have h2 : (y + 1) * width ≤ height * width := Nat.mul_le_mul_right _ (by omega)
      have h3 : y * width + x + 1 ≤ (y + 1) * width := by
        have : (y + 1) * width = y * width + width := by ring
        omega
      omega
    have h4 : (y * width + x + 1) * 3 ≤ (height * width) * 3 := by omega
    have h5 : width * height * 3 = (height * width) * 3 := by ring
    omega
  have h3 : ((y * width + x) * 3 + c) / 3 = y * width + x := by omega
  have h3' : ((y * width + x) * 3 + c) % 3 = c := by omega
  have hmod : (y * width + x) % width = x := by
    rw [mul_comm y width, Nat.mul_add_mod]
    exact Nat.mod_eq_of_lt hx
  have hdiv : (y * width + x) / width = y := by
    rw [mul_comm y width, Nat.mul_add_div hw0, Nat.div_eq_of_lt hx, Nat.add_zero]
  simp only [demosaic_bilinear]
  rw [getD_map_range, if_pos hk]
  simp only [h3, h3', hmod, hdiv]

/-- C6: `demosaic_bilinear` writes only interior pixels: the output has
length `width * height * 3`, every byte of a pixel on the first or last row
or column is 0, and a tile with `width < 3` or `height < 3` yields the
all-zero buffer (the model is total there: the interior loop is empty, no
element is accessed and no panic can occur). -/
theorem demosaic_bilinear_border_zero (bayer : List Nat)
    (width height offset_x offset_y : Nat) (pattern : BayerPattern)
    (black_level white_level : Nat) :
    (demosaic_bilinear bayer width height offset_x offset_y pattern
        black_level white_level).length = width * height * 3 ∧
    (∀ x y c, x < width → y < height → c < 3 →
      (x = 0 ∨ x = width - 1 ∨ y = 0 ∨ y = height - 1) →
      (demosaic_bilinear bayer width height offset_x offset_y pattern
        black_level white_level).getD ((y * width + x) * 3 + c) 0 = 0) ∧
    (width < 3 ∨ height < 3 →
      demosaic_bilinear bayer width height offset_x offset_y pattern black_level white_level
        = List.replicate (width * height * 3) 0) := by
  refine ⟨by simp [demosaic_bilinear], ?_, ?_⟩
  · intro x y c hx hy hc hborder
    rw [demosaic_bilinear_entry bayer width height offset_x offset_y pattern
      black_level white_level x y c hx hy hc]
    rw [if_neg (by omega)]
  · intro hsmall
    apply List.ext_getElem
    · simp [demosaic_bilinear]
    · intro k hk1 hk2
      simp only [demosaic_bilinear, List.getElem_map, List.getElem_range,
        List.getElem_replicate]
      have hkN : k < width * height * 3 := by
        simpa [demosaic_bilinear] using hk1
      have hwpos : 0 < width := by
        rcases Nat.eq_zero_or_pos width with h | h
        · subst h; simp at hkN
        · exact h
      have hxv : (k / 3) % width < width := Nat.mod_lt _ hwpos
      have hyv : (k / 3) / width < height := by
        rw [Nat.div_lt_iff_lt_mul hwpos]
        have : k / 3 < width * height := by omega
        have hcomm : height * width = width * height := by ring
        omega
      rw [if_neg (by omega)]

/-- Witness for C6: a 2×2 tile (width and height under 3) demosaics to the
all-zero 12-byte buffer with zero borders. -/
theorem demosaic_bilinear_border_zero_witness :
    (demosaic_bilinear [1, 2, 3, 4] 2 2 0 0 .RGGB 0 4095).length = 2 * 2 * 3 ∧
    (demosaic_bilinear [1, 2, 3, 4] 2 2 0 0 .RGGB 0 4095).getD ((0 * 2 + 0) * 3 + 0) 0 = 0 ∧
    demosaic_bilinear [1, 2, 3, 4] 2 2 0 0 .RGGB 0 4095 = List.replicate (2 * 2 * 3) 0 := by
  obtain ⟨h1, h2, h3⟩ := demosaic_bilinear_border_zero [1, 2, 3, 4] 2 2 0 0 .RGGB 0 4095
  exact ⟨h1, h2 0 0 0 (by norm_num) (by norm_num) (by norm_num) (Or.inl rfl),
    h3 (Or.inl (by norm_num))⟩

/-- C5: the color channel used by the bilinear demosaic at tile-local pixel
`(x, y)` is `pattern.color_at(tile.x + x, tile.y + y)` — parity on absolute
full-image coordinates — so two tiles containing the same sensor pixel (and
agreeing on its 3×3 Bayer neighborhood, as tiles copied from one sensor
buffer do) assign it the same color class and produce the same output
bytes, including at tile boundaries. -/
theorem demosaic_bilinear_absolute_parity (pattern : BayerPattern)
    (black_level white_level : Nat)
    (bayer1 : List Nat) (w1 h1 o1x o1y x1 y1 : Nat)
    (bayer2 : List Nat) (w2 h2 o2x o2y x2 y2 : Nat) (c : Nat)
    (hgx : o1x + x1 = o2x + x2) (hgy : o1y + y1 = o2y + y2)
    (hi1 : 1 ≤ x1 ∧ x1 < w1 - 1 ∧ 1 ≤ y1 ∧ y1 < h1 - 1)
    (hi2 : 1 ≤ x2 ∧ x2 < w2 - 1 ∧ 1 ≤ y2 ∧ y2 < h2 - 1)
    (hc : c < 3)
    (hnbC : bayer1.getD (y1 * w1 + x1) 0 = bayer2.getD (y2 * w2 + x2) 0)
    (hnbL : bayer1.getD (y1 * w1 + x1 - 1) 0 = bayer2.getD (y2 * w2 + x2 - 1) 0)
    (hnbR : bayer1.getD (y1 * w1 + x1 + 1) 0 = bayer2.getD (y2 * w2 + x2 + 1) 0)
    (hnbU : bayer1.getD (y1 * w1 + x1 - w1) 0 = bayer2.getD (y2 * w2 + x2 - w2) 0)
    (hnbD : bayer1.getD (y1 * w1 + x1 + w1) 0 = bayer2.getD (y2 * w2 + x2 + w2) 0)
    (hnbUL : bayer1.getD (y1 * w1 + x1 - w1 - 1) 0 = bayer2.getD (y2 * w2 + x2 - w2 - 1) 0)
    (hnbUR : bayer1.getD (y1 * w1 + x1 - w1 + 1) 0 = bayer2.getD (y2 * w2 + x2 - w2 + 1) 0)
    (hnbDL : bayer1.getD (y1 * w1 + x1 + w1 - 1) 0 = bayer2.getD (y2 * w2 + x2 + w2 - 1) 0)
    (hnbDR : bayer1.getD (y1 * w1 + x1 + w1 + 1) 0 = bayer2.getD (y2 * w2 + x2 + w2 + 1) 0) :
    pattern.color_at (o1x + x1) (o1y + y1) = pattern.color_at (o2x + x2) (o2y + y2) ∧
    (demosaic_bilinear bayer1 w1 h1 o1x o1y pattern black_level white_level).getD
        ((y1 * w1 + x1) * 3 + c) 0 =
      (demosaic_bilinear bayer2 w2 h2 o2x o2y pattern black_level white_level).getD
        ((y2 * w2 + x2) * 3 + c) 0 := by
  have hpix : pixelRGB bayer1 w1 (o1x + x1) (o1y + y1) x1 y1 pattern black_level =
      pixelRGB bayer2 w2 (o2x + x2) (o2y + y2) x2 y2 pattern black_level := by
    simp only [pixelRGB]
    rw [hgx, hgy, hnbC, hnbL, hnbR, hnbU, hnbD, hnbUL, hnbUR, hnbDL, hnbDR]
  constructor
  · rw [hgx, hgy]
  · rw [demosaic_bilinear_entry bayer1 w1 h1 o1x o1y pattern black_level white_level
      x1 y1 c (by omega) (by omega) hc]
    rw [demosaic_bilinear_entry bayer2 w2 h2 o2x o2y pattern black_level white_level
      x2 y2 c (by omega) (by omega) hc]
    rw [if_pos (by omega), if_pos (by omega), hpix]

/-- Witness for C5: the sensor pixel at absolute position (2, 2), seen as
local pixel (2, 2) of a 4×4 tile at the origin and as local pixel (1, 1) of
the 3×3 tile at offset (1, 1) cut from the same buffer, gets the same color
class and the same output byte. -/
theorem demosaic_bilinear_absolute_parity_witness :
    BayerPattern.color_at .RGGB (0 + 2) (0 + 2) = BayerPattern.color_at .RGGB (1 + 1) (1 + 1) ∧
    (demosaic_bilinear [10, 11, 12, 13, 14, 15, 16, 17, 18, 19, 20, 21, 22, 23, 24, 25]
        4 4 0 0 .RGGB 0 4095).getD ((2 * 4 + 2) * 3 + 0) 0 =
      (demosaic_bilinear [15, 16, 17, 19, 20, 21, 23, 24, 25]
        3 3 1 1 .RGGB 0 4095).getD ((1 * 3 + 1) * 3 + 0) 0 :=
  demosaic_bilinear_absolute_parity .RGGB 0 4095
    [10, 11, 12, 13, 14, 15, 16, 17, 18, 19, 20, 21, 22, 23, 24, 25] 4 4 0 0 2 2
    [15, 16, 17, 19, 20, 21, 23, 24, 25] 3 3 1 1 1 1 0
    (by decide) (by decide) (by decide) (by decide) (by decide)
    (by decide) (by decide) (by decide) (by decide) (by decide)
    (by decide) (by decide) (by decide) (by decide)

/-- Helper: length of a row-major flattened grid of `b` rows of `a` items. -/
theorem tileGrid_flatten_length {α : Type} (g : Nat → Nat → α) (a : Nat) :
    ∀ b, (((List.range b).map fun ty => (List.range a).map fun tx => g ty tx).flatten).length
      = b * a := by
  intro b
  induction b with
  | zero => simp
  | succ b ih =>
    rw [List.range_succ, List.map_append, List.flatten_append, List.length_append, ih]
    simp [Nat.succ_mul]

/-- Helper: entry `i` of a row-major flattened grid is item `i % a` of row
`i / a`. -/
theorem tileGrid_flatten_getElem {α : Type} (g : Nat → Nat → α) (a : Nat) :
    ∀ b i, i < b * a →
      (((List.range b).map fun ty => (List.range a).map fun tx => g ty tx).flatten)[i]? =
        some (g (i / a) (i % a)) := by
  intro b
  induction b with
  | zero => intro i hi; exact absurd hi (by omega)
  | succ b ih =>
    intro i hi
    rw [List.range_succ, List.map_append, List.flatten_append]
    rcases Nat.lt_or_ge i (b * a) with h | h
    · rw [List.getElem?_append, if_pos (by rw [tileGrid_flatten_length]; exact h)]
      exact ih i h
    · rw [List.getElem?_append, if_neg (by rw [tileGrid_flatten_length]; omega)]
      rw [tileGrid_flatten_length]
      simp only [List.map_cons, List.map_nil, List.flatten_cons, List.flatten_nil,
        List.append_nil]
      have hia : i - b * a < a := by
        have hsm : (b + 1) * a = b * a + a := Nat.succ_mul b a
        omega
      rw [List.getElem?_map, List.getElem?_range hia]
      have h1 : i / a = b := by
        apply Nat.div_eq_of_lt_le
        · have hcm : a * b = b * a := mul_comm a b
          omega
        · have hcm : Nat.succ b * a = b * a + a := Nat.succ_mul b a
          have hcm2 : a * b = b * a := mul_comm a b
          omega
      have h2 : i % a = i - b * a := by
        have h3 := Nat.div_add_mod i a
        rw [h1] at h3
        have hcm : a * b = b * a := mul_comm a b
        omega
      rw [h1, h2]
      rfl

/-- C4: `demosaic` extracts exactly `ceil(width/tile_size) *
ceil(height/tile_size)` tiles in row-major order (entry `i` of the
extraction list is the grid tile at column `i % tiles_x`, row
`i / tiles_x`), and the tiles' core regions partition the `width × height`
grid: every pixel lies in exactly one core region. -/
theorem demosaic_tiling_partition (self : ParallelDemosaic) (bayer : List Nat)
    (width height : Nat) (hw : 0 < width) (hh : 0 < height)
    (hts : 0 < self.tile_size) :
    (self.tilesList bayer width height).length =
      ((width + self.tile_size - 1) / self.tile_size) *
        ((height + self.tile_size - 1) / self.tile_size) ∧
    (∀ i, i < ((width + self.tile_size - 1) / self.tile_size) *
        ((height + self.tile_size - 1) / self.tile_size) →
      (self.tilesList bayer width height)[i]? =
        some (self.extract_tile bayer width height
          (i % ((width + self.tile_size - 1) / self.tile_size))
          (i / ((width + self.tile_size - 1) / self.tile_size)))) ∧
    (∀ px py, px < width → py < height →
      ∃! t : Nat × Nat, inCoreRegion self.tile_size width height t.1 t.2 px py) := by
  refine ⟨?_, ?_, ?_⟩
  · simp only [ParallelDemosaic.tilesList]
    rw [tileGrid_flatten_length]
    exact mul_comm _ _
  · intro i hi
    simp only [ParallelDemosaic.tilesList]
    rw [tileGrid_flatten_getElem]
    rwa [mul_comm]
  · intro px py hpx hpy
    have hdm : self.tile_size * (px / self.tile_size) + px % self.tile_size = px :=
      Nat.div_add_mod px self.tile_size
    have hmod : px % self.tile_size < self.tile_size := Nat.mod_lt _ hts
    have hdm' : self.tile_size * (py / self.tile_size) + py % self.tile_size = py :=
      Nat.div_add_mod py self.tile_size
    have hmod' : py % self.tile_size < self.tile_size := Nat.mod_lt _ hts
    have hlt1 : px < (px / self.tile_size + 1) * self.tile_size := by
      have h3 : (px / self.tile_size + 1) * self.tile_size =
          self.tile_size * (px / self.tile_size) + self.tile_size := by ring
      omega
    have hlt2 : py < (py / self.tile_size + 1) * self.tile_size := by
      have h3 : (py / self.tile_size + 1) * self.tile_size =
          self.tile_size * (py / self.tile_size) + self.tile_size := by ring
      omega
    refine ⟨(px / self.tile_size, py / self.tile_size), ⟨?_, ?_, ?_, ?_⟩, ?_⟩
    · exact Nat.div_mul_le_self px self.tile_size
    · exact lt_min_iff.mpr ⟨hlt1, hpx⟩
    · exact Nat.div_mul_le_self py self.tile_size
    · exact lt_min_iff.mpr ⟨hlt2, hpy⟩
    · rintro ⟨tx, ty⟩ ⟨h1, h2, h3, h4⟩
      have h2' : px < (tx + 1) * self.tile_size := lt_of_lt_of_le h2 (min_le_left _ _)
      have h4' : py < (ty + 1) * self.tile_size := lt_of_lt_of_le h4 (min_le_left _ _)
      have e1 : px / self.tile_size = tx := Nat.div_eq_of_lt_le h1 h2'
      have e2 : py / self.tile_size = ty := Nat.div_eq_of_lt_le h3 h4'
      simp [e1, e2]

/-- Witness for C4: a 3×5 image with tile size 2 has 2×3 tiles whose cores
partition the grid. -/
theorem demosaic_tiling_partition_witness :
    ((ParallelDemosaic.tilesList ⟨2, 1, .Bilinear⟩ [] 3 5).length =
      ((3 + 2 - 1) / 2) * ((5 + 2 - 1) / 2) ∧
    (∀ i, i < ((3 + 2 - 1) / 2) * ((5 + 2 - 1) / 2) →
      (ParallelDemosaic.tilesList ⟨2, 1, .Bilinear⟩ [] 3 5)[i]? =
        some (ParallelDemosaic.extract_tile ⟨2, 1, .Bilinear⟩ [] 3 5
          (i % ((3 + 2 - 1) / 2)) (i / ((3 + 2 - 1) / 2)))) ∧
    (∀ px py, px < 3 → py < 5 →
      ∃! t : Nat × Nat, inCoreRegion 2 3 5 t.1 t.2 px py)) :=
  demosaic_tiling_partition ⟨2, 1, .Bilinear⟩ [] 3 5 (by norm_num) (by norm_num) (by norm_num)

set_option maxHeartbeats 1000000 in
/-- C2 (code defect): blending a 1×1 image leaves its only pixel with zero
accumulated weight (the default overlap 16 exceeds the tile extent, so the
blend weight is 0) — a coverage gap — yet `combine_tiles` still returns the
full-size byte buffer of black pixels, and the whole `demosaic` pipeline
returns it to the caller: no error value exists in the `Vec<u8>`-returning
signatures, so the gap is never detected or surfaced. -/
theorem combine_tiles_gap_returns_buffer :
    (combineState [gapTile] 1 1).weight_map.getD 0 0 = 0 ∧
    combine_tiles [gapTile] 1 1 = [0, 0, 0] ∧
    ParallelDemosaic.demosaic ⟨512, 16, .Bilinear⟩ [5] 1 1 .RGGB 0 4095 = [0, 0, 0] := by
  refine ⟨?_, ?_, ?_⟩
  · simp [combineState, accumPixel, accumChannel, blendWeight, rampCode, byteOfRat,
      gapTile, List.range_succ]
  · simp [combine_tiles, combineState, accumPixel, accumChannel, blendWeight, rampCode,
      byteOfRat, gapTile, List.range_succ]
  · simp [ParallelDemosaic.demosaic, ParallelDemosaic.tilesList,
      ParallelDemosaic.extract_tile, ParallelDemosaic.demosaic_tile, demosaic_bilinear,
      combine_tiles, combineState, accumPixel, accumChannel, blendWeight, rampCode,
      byteOfRat, List.range_succ]
    try norm_num [min_def]

set_option maxHeartbeats 1000000 in
/-- Counterexample for C7: blending is not order-independent.  Three 1×1
overlap-0 tiles with values 0, 3, 0 at the same output pixel: in the order
A, B, C the output byte is 0, in the permuted order A, C, B it is 1,
because each accumulation step re-quantizes the stored running average to
`u8` before the next tile reads it back. -/
theorem combine_tiles_order_dependent :
    List.Perm [permTileA, permTileB, permTileC] [permTileA, permTileC, permTileB] ∧
    combine_tiles [permTileA, permTileB, permTileC] 1 1 ≠
      combine_tiles [permTileA, permTileC, permTileB] 1 1 := by
  constructor
  · exact List.Perm.cons _ (List.Perm.swap _ _ _)
  · have h1 : combine_tiles [permTileA, permTileB, permTileC] 1 1 = [0, 0, 0] := by
      simp [combine_tiles, combineState, accumPixel, accumChannel, blendWeight, rampCode,
        byteOfRat, permTileA, permTileB, permTileC, List.range_succ]
      try norm_num [min_def]
    have h2 : combine_tiles [permTileA, permTileC, permTileB] 1 1 = [1, 1, 1] := by
      simp [combine_tiles, combineState, accumPixel, accumChannel, blendWeight, rampCode,
        byteOfRat, permTileA, permTileB, permTileC, List.range_succ]
      try norm_num [min_def]
    rw [h1, h2]
    decide

/-- C7 (amended): the blend is order-independent in exact arithmetic: for
every permutation of the tile collection, the per-pixel accumulated
weighted sum and total weight that `combine_tiles` gathers are unchanged.
Byte-identical output does not hold (see the counterexample): each step
re-quantizes the stored running average to `u8`, which makes the final
bytes order-dependent where tiles overlap. -/
theorem exactBlendSums_perm_invariant (tiles1 tiles2 : List DemosaicedTile)
    (hperm : tiles1.Perm tiles2) (width height px py off : Nat) :
    exactBlendSums tiles1 width height px py off =
      exactBlendSums tiles2 width height px py off := by
  unfold exactBlendSums
  rw [List.Perm.sum_eq (hperm.map _), List.Perm.sum_eq (hperm.map _)]

/-- Witness for C7 (amended): swapping two overlapping tiles leaves the
exact accumulated sums unchanged. -/
theorem exactBlendSums_perm_invariant_witness :
    exactBlendSums [permTileB, permTileA] 1 1 0 0 0 =
      exactBlendSums [permTileA, permTileB] 1 1 0 0 0 :=
  exactBlendSums_perm_invariant _ _ (List.Perm.swap permTileA permTileB []) 1 1 0 0 0

/-- Helper: tenth powers modulo 11 are 0 or 1 (Fermat). -/
theorem pow10_mod11 (m : Nat) : m ^ 10 % 11 = 0 ∨ m ^ 10 % 11 = 1 := by
  have hr : m % 11 < 11 := Nat.mod_lt _ (by norm_num)
  rw [Nat.pow_mod]
  revert hr
  generalize m % 11 = r
  intro hr
  interval_cases r <;> decide

/-- Helper: `118^10 = 8 * m^10` has no natural solution (mod 11 the left
side is 1 and the right side is 0 or 8). -/
theorem pow10_ne_aux1 (m : Nat) : 118 ^ 10 ≠ 8 * m ^ 10 := by
  intro h
  have hmod : 118 ^ 10 % 11 = (8 * m ^ 10) % 11 := by rw [h]
  rw [Nat.mul_mod] at hmod
  rcases pow10_mod11 m with h0 | h0 <;> rw [h0] at hmod <;>
    exact absurd hmod (by decide)

/-- Helper: `8 * 118^10 = m^10` has no natural solution (mod 11 the left
side is 8 and the right side is 0 or 1). -/
theorem pow10_ne_aux2 (m : Nat) : 8 * 118 ^ 10 ≠ m ^ 10 := by
  intro h
  have hmod : (8 * 118 ^ 10) % 11 = m ^ 10 % 11 := by rw [h]
  rcases pow10_mod11 m with h0 | h0 <;> rw [h0] at hmod <;>
    exact absurd hmod (by decide)

/-- Helper: for an integer median bin `m > 0`, `log2(118/m)` is never
exactly `3/10` (else `(118/m)^10 = 8`, i.e. `118^10 = 8 * m^10`). -/
theorem logb_ne_pos (m : Nat) (hm : 0 < m) :
    Real.logb 2 (118 / (m : ℝ)) ≠ 3 / 10 := by
  intro hL
  have hmR : (0 : ℝ) < (m : ℝ) := by exact_mod_cast hm
  have hx : (0 : ℝ) < 118 / (m : ℝ) := by positivity
  have hxv : (2 : ℝ) ^ Real.logb 2 (118 / (m : ℝ)) = 118 / (m : ℝ) :=
    Real.rpow_logb (by norm_num) (by norm_num) hx
  rw [hL] at hxv
  have h10 : ((2 : ℝ) ^ ((3 : ℝ) / 10)) ^ (10 : ℕ) = 8 := by
    rw [← Real.rpow_natCast ((2 : ℝ) ^ ((3 : ℝ) / 10)) 10,
      ← Real.rpow_mul (by norm_num : (0 : ℝ) ≤ 2)]
    rw [show (3 : ℝ) / 10 * (10 : ℕ) = ((3 : ℕ) : ℝ) by push_cast; ring]
    rw [Real.rpow_natCast]
    norm_num
  rw [hxv] at h10
  have hm0 : (m : ℝ) ≠ 0 := ne_of_gt hmR
  have hNat : (118 : ℕ) ^ 10 = 8 * m ^ 10 := by
    have h11 : (118 : ℝ) ^ 10 = 8 * (m : ℝ) ^ 10 := by
      field_simp at h10
      linarith
    exact_mod_cast h11
  exact pow10_ne_aux1 m hNat

/-- Helper: for an integer median bin `m > 0`, `log2(118/m)` is never
exactly `-3/10` (else `(118/m)^10 = 1/8`, i.e. `8 * 118^10 = m^10`). -/
theorem logb_ne_neg (m : Nat) (hm : 0 < m) :
    Real.logb 2 (118 / (m : ℝ)) ≠ -(3 / 10) := by
  intro hL
  have hmR : (0 : ℝ) < (m : ℝ) := by exact_mod_cast hm
  have hx : (0 : ℝ) < 118 / (m : ℝ) := by positivity
  have hxv : (2 : ℝ) ^ Real.logb 2 (118 / (m : ℝ)) = 118 / (m : ℝ) :=
    Real.rpow_logb (by norm_num) (by norm_num) hx
  rw [hL] at hxv
  have h10 : ((2 : ℝ) ^ (-(3 / 10) : ℝ)) ^ (10 : ℕ) = 1 / 8 := by
    rw [← Real.rpow_natCast ((2 : ℝ) ^ (-(3 / 10) : ℝ)) 10,
      ← Real.rpow_mul (by norm_num : (0 : ℝ) ≤ 2)]
    rw [show (-(3 / 10) : ℝ) * (10 : ℕ) = ((-3 : ℤ) : ℝ) by push_cast; ring]
    rw [Real.rpow_intCast]
    norm_num
  rw [hxv] at h10
  have hm0 : (m : ℝ) ≠ 0 := ne_of_gt hmR
  have hNat : 8 * (118 : ℕ) ^ 10 = m ^ 10 := by
    have h11 : 8 * (118 : ℝ) ^ 10 = (m : ℝ) ^ 10 := by
      field_simp at h10
      linarith
    exact_mod_cast h11
  exact pow10_ne_aux2 m hNat

/-- Helper: for an integer median bin the magnitude of the clamped EV is
never exactly 0.3, so the strict comparison in the source cannot sit on the
boundary. -/
theorem clamp_abs_ne (m : Nat) (hm : 0 < m) :
    |max (-2 : ℝ) (min 3 (Real.logb 2 (118 / (m : ℝ))))| ≠ 0.3 := by
  intro habs
  rcases (abs_eq (by norm_num : (0 : ℝ) ≤ 0.3)).mp habs with hc | hc
  · rcases le_or_lt (Real.logb 2 (118 / (m : ℝ))) (-2) with h | h
    · rw [min_eq_right (by linarith), max_eq_left h] at hc
      norm_num at hc
    · rcases le_or_lt 3 (Real.logb 2 (118 / (m : ℝ))) with h2 | h2
      · rw [min_eq_left h2, max_eq_right (by norm_num)] at hc
        norm_num at hc
      · rw [min_eq_right h2.le, max_eq_right h.le] at hc
        exact logb_ne_pos m hm (by rw [hc]; norm_num)
  · rcases le_or_lt (Real.logb 2 (118 / (m : ℝ))) (-2) with h | h
    · rw [min_eq_right (by linarith), max_eq_left h] at hc
      norm_num at hc
    · rcases le_or_lt 3 (Real.logb 2 (118 / (m : ℝ))) with h2 | h2
      · rw [min_eq_left h2, max_eq_right (by norm_num)] at hc
        norm_num at hc
      · rw [min_eq_right h2.le, max_eq_right h.le] at hc
        exact logb_ne_neg m hm (by rw [hc]; norm_num)

open Classical in
/-- C8: for a sampled median bin `m > 0`, `calculate_auto_exposure` returns
`log2(118/m)` clamped to `[-2, 3]`, except that a clamped adjustment under
0.3 stops in magnitude yields exactly 0 (so a median within the tolerance
band gives exactly 0).  The source tests `0.3 < |ev|` while the claim says
`|ev| < 0.3` maps to 0; these agree because `|ev|` never equals 0.3 at an
integer median bin. -/
theorem auto_exposure_formula (m : Nat) (hm : 0 < m) :
    calculate_auto_exposure_ev (m : ℝ) =
      if |max (-2 : ℝ) (min 3 (Real.logb 2 (118 / (m : ℝ))))| < 0.3 then 0
      else max (-2 : ℝ) (min 3 (Real.logb 2 (118 / (m : ℝ)))) := by
  have hne := clamp_abs_ne m hm
  simp only [calculate_auto_exposure_ev]
  rcases lt_or_gt_of_ne hne with h | h
  · rw [if_neg (by push_neg; exact h.le), if_pos h]
  · rw [if_pos h, if_neg (not_lt.mpr h.le)]

open Classical in
/-- Witness for C8: at median bin 118 the adjustment `log2(1) = 0` is under
0.3 stops, so the estimator returns exactly 0. -/
theorem auto_exposure_formula_witness :
    0 < 118 ∧
    calculate_auto_exposure_ev ((118 : Nat) : ℝ) =
      if |max (-2 : ℝ) (min 3 (Real.logb 2 (118 / ((118 : Nat) : ℝ))))| < 0.3 then 0
      else max (-2 : ℝ) (min 3 (Real.logb 2 (118 / ((118 : Nat) : ℝ)))) :=
  ⟨by norm_num, auto_exposure_formula 118 (by norm_num)⟩
